import Mathlib

/-!
Verification of the dssat-pylib utility library against its specification.

The Python sources are shallowly embedded:
* numeric series (Python lists of floats) become `List ℚ`;
* file contents become `List Char` (for the text-substitution code) or
  `List String` (a file as its list of lines, for the line-scanning code);
* pandas dataframes become `SoilTable` (an ordered column list plus a row
  count);
* fallible code (`cumdata[0]` on an empty list raises `IndexError`) returns
  `Option`;
* real-valued float computations (square roots) are modelled over `ℝ`.
-/

/-! ### util_read_dssat_out.cum2daily

Source (`src/dssatpylib/util_read_dssat_out.py`, lines 42-57):

    dailydata = [cumdata[0]]
    for i in range(1, len(cumdata)):
        if cumdata[i] < cumdata[i-1]:
            dailydata.append(cumdata[i])
        else:
            dailydata.append(cumdata[i]-cumdata[i-1])
    return dailydata

`cumdata[0]` raises `IndexError` on an empty list, hence the `Option`.
-/

/-- The loop body of `cum2daily`: `prev` is `cumdata[i-1]`. -/
def cum2dailyGo (prev : ℚ) : List ℚ → List ℚ
  | [] => []
  | y :: ys => (if y < prev then y else y - prev) :: cum2dailyGo y ys

/-- `cum2daily` from `util_read_dssat_out.py`; `none` models the
`IndexError` raised by `cumdata[0]` on empty input. -/
def cum2daily : List ℚ → Option (List ℚ)
  | [] => none
  | x :: xs => some (x :: cum2dailyGo x xs)

/-- The running reconstruction described by the specification:
`s[0] = d[0]`, and for `i ≥ 1`, `s[i] = d[i]` when `c[i] < c[i-1]`
(a reset index) and `s[i] = s[i-1] + d[i]` otherwise.  `cprev` carries
`c[i-1]` and `sprev` carries `s[i-1]`. -/
def reconGo (cprev sprev : ℚ) : List ℚ → List ℚ → List ℚ
  | ci :: cs, di :: ds =>
    (if ci < cprev then di else sprev + di) ::
      reconGo ci (if ci < cprev then di else sprev + di) cs ds
  | _, _ => []

/-- Running reconstruction of a cumulative series from `cum2daily` output. -/
def runningRecon : List ℚ → List ℚ → List ℚ
  | c0 :: cs, d0 :: ds => d0 :: reconGo c0 d0 cs ds
  | _, _ => []

theorem reconGo_cum2dailyGo (cs : List ℚ) :
    ∀ prev : ℚ, reconGo prev prev cs (cum2dailyGo prev cs) = cs := by
  induction cs with
  | nil => intro prev; rfl
  | cons ci cs ih =>
    intro prev
    by_cases h : ci < prev
    · simp only [cum2dailyGo, reconGo, if_pos h]
      exact congrArg (ci :: ·) (ih ci)
    · simp only [cum2dailyGo, reconGo, if_neg h, add_sub_cancel]
      exact congrArg (ci :: ·) (ih ci)

theorem cum2dailyGo_length (prev : ℚ) (cs : List ℚ) :
    (cum2dailyGo prev cs).length = cs.length := by
  induction cs generalizing prev with
  | nil => rfl
  | cons y ys ih => simp [cum2dailyGo, ih]

theorem cum2dailyGo_getD (cs : List ℚ) :
    ∀ (prev : ℚ) (i : ℕ), i < cs.length →
      (cum2dailyGo prev cs).getD i 0 =
        (if cs.getD i 0 < (if i = 0 then prev else cs.getD (i - 1) 0)
         then cs.getD i 0
         else cs.getD i 0 - (if i = 0 then prev else cs.getD (i - 1) 0)) := by
  induction cs with
  | nil => intro prev i hi; simp at hi
  | cons y ys ih =>
    intro prev i hi
    match i with
    | 0 => simp [cum2dailyGo]
    | j + 1 =>
      have hj : j < ys.length := by simpa using hi
      have := ih y j hj
      simp only [cum2dailyGo, List.getD_cons_succ]
      rw [this]
      match j with
      | 0 => simp
      | k + 1 => simp

/-- **C2.** For every non-empty cumulative list `c`, with `d = cum2daily c`,
the running reconstruction (`s[0] = d[0]`; `s[i] = d[i]` at a reset index
`c[i] < c[i-1]`, else `s[i] = s[i-1] + d[i]`) reproduces `c` at every index;
moreover the conversion resets exactly at every index with `c[i] < c[i-1]`
(emitting `c[i]` there rather than a negative delta) and emits the
difference `c[i] - c[i-1]` everywhere else. -/
theorem cum2daily_running_reconstruction (c d : List ℚ)
    (h : cum2daily c = some d) :
    runningRecon c d = c ∧
      ∀ i : ℕ, i + 1 < c.length →
        (c.getD (i + 1) 0 < c.getD i 0 → d.getD (i + 1) 0 = c.getD (i + 1) 0) ∧
        (c.getD i 0 ≤ c.getD (i + 1) 0 →
          d.getD (i + 1) 0 = c.getD (i + 1) 0 - c.getD i 0) := by
  match c with
  | [] => simp [cum2daily] at h
  | c0 :: cs =>
    simp only [cum2daily, Option.some_inj] at h
    subst h
    refine ⟨?_, ?_⟩
    · simp only [runningRecon]
      exact congrArg (c0 :: ·) (reconGo_cum2dailyGo cs c0)
    · intro i hi
      have hlen : i < cs.length := by simpa using hi
      have hgo := cum2dailyGo_getD cs c0 i hlen
      have hc1 : (c0 :: cs).getD (i + 1) 0 = cs.getD i 0 := by simp
      have hd1 : (c0 :: cum2dailyGo c0 cs).getD (i + 1) 0 =
          (cum2dailyGo c0 cs).getD i 0 := by simp
      have hc0 : (c0 :: cs).getD i 0 =
          (if i = 0 then c0 else cs.getD (i - 1) 0) := by
        match i with
        | 0 => simp
        | k + 1 => simp
      constructor
      · intro hlt
        rw [hd1, hgo, hc1, if_pos]
        rw [hc1, hc0] at hlt; exact hlt
      · intro hle
        rw [hc1, hc0] at hle
        rw [hd1, hgo, hc1, hc0, if_neg (not_lt_of_le hle)]

theorem cum2daily_running_reconstruction_witness :
    cum2daily [(2 : ℚ), 5, 1, 4] = some [2, 3, 1, 3] ∧
      (runningRecon [(2 : ℚ), 5, 1, 4] [2, 3, 1, 3] = [2, 5, 1, 4] ∧
        ∀ i : ℕ, i + 1 < ([(2 : ℚ), 5, 1, 4] : List ℚ).length →
          (([(2 : ℚ), 5, 1, 4] : List ℚ).getD (i + 1) 0 <
              ([(2 : ℚ), 5, 1, 4] : List ℚ).getD i 0 →
            ([(2 : ℚ), 3, 1, 3] : List ℚ).getD (i + 1) 0 =
              ([(2 : ℚ), 5, 1, 4] : List ℚ).getD (i + 1) 0) ∧
          (([(2 : ℚ), 5, 1, 4] : List ℚ).getD i 0 ≤
              ([(2 : ℚ), 5, 1, 4] : List ℚ).getD (i + 1) 0 →
            ([(2 : ℚ), 3, 1, 3] : List ℚ).getD (i + 1) 0 =
              ([(2 : ℚ), 5, 1, 4] : List ℚ).getD (i + 1) 0 -
                ([(2 : ℚ), 5, 1, 4] : List ℚ).getD i 0)) :=
  ⟨by norm_num [cum2daily, cum2dailyGo],
    cum2daily_running_reconstruction [2, 5, 1, 4] [2, 3, 1, 3]
      (by norm_num [cum2daily, cum2dailyGo])⟩

/-- **C9.** `cum2daily` fails (raises) exactly on the empty list; on any
non-empty list it succeeds with an output of the same length whose first
element equals the first input element. -/
theorem cum2daily_shape :
    cum2daily ([] : List ℚ) = none ∧
      ∀ c : List ℚ, c ≠ [] →
        ∃ d, cum2daily c = some d ∧ d.length = c.length ∧ d.head? = c.head? := by
  refine ⟨rfl, ?_⟩
  intro c hc
  match c with
  | [] => exact absurd rfl hc
  | c0 :: cs =>
    refine ⟨c0 :: cum2dailyGo c0 cs, rfl, ?_, rfl⟩
    simp [cum2dailyGo_length]

theorem cum2daily_shape_witness :
    ([(7 : ℚ), 9, 3] : List ℚ) ≠ [] ∧
      ∃ d, cum2daily [(7 : ℚ), 9, 3] = some d ∧
        d.length = ([(7 : ℚ), 9, 3] : List ℚ).length ∧
        d.head? = ([(7 : ℚ), 9, 3] : List ℚ).head? :=
  ⟨by decide, cum2daily_shape.2 [7, 9, 3] (by decide)⟩

/-! ### util_soil.formatInput

Source (`src/dssatpylib/util_soil.py`, lines 34-59):

    if not isfloat(input_to_format):
        formatted2str = str(input_to_format)
    elif isfloat(input_to_format) and int(input_to_format) == -99:
        formatted2str = str(int(input_to_format))
    else:
        if decimal != 0:
            formatting = '{:.'+str(decimal)+'f}'
            formatted2str = formatting.format(input_to_format)
        else:
            formatted2str = str(int(input_to_format))
    padSpace = (space_available-len(formatted2str))*' '
    formatted_input = padSpace + formatted2str

The embedding covers the numeric inputs the claims quantify over
(`isfloat` is `True` on every numeric input, so the first branch is dead
there).  Python's `int()` truncates toward zero; `'{:.Nf}'.format` rounds
half-to-even at `N` decimal places.
-/

/-- Python `int()` on a number: truncation toward zero. -/
def pyInt (q : ℚ) : ℤ := if q < 0 then ⌈q⌉ else ⌊q⌋

/-- IEEE/Python round-half-to-even to the nearest integer. -/
def roundHalfEven (q : ℚ) : ℤ :=
  if q - ⌊q⌋ < 1 / 2 then ⌊q⌋
  else if 1 / 2 < q - ⌊q⌋ then ⌊q⌋ + 1
  else if Even ⌊q⌋ then ⌊q⌋ else ⌊q⌋ + 1

/-- Left-pad a digit string with zeros to width `d`. -/
def padZeros (s : String) (d : ℕ) : String :=
  String.mk (List.replicate (d - s.length) '0') ++ s

/-- Python `'{:.df}'.format(q)`: fixed-point rendering with `d` decimal
places, rounding half to even. -/
def pyFormatFixed (q : ℚ) (d : ℕ) : String :=
  let n : ℤ := roundHalfEven (q * (10 : ℚ) ^ d)
  if d = 0 then toString n
  else
    (if n < 0 then "-" else "") ++ toString (n.natAbs / 10 ^ d) ++ "." ++
      padZeros (toString (n.natAbs % 10 ^ d)) d

/-- Python `s.rjust`-style padding as done by
`padSpace + formatted2str` in the source (`(w - len)*' '` is empty when
the string is already wider). -/
def padLeftSpaces (s : String) (w : ℕ) : String :=
  String.mk (List.replicate (w - s.length) ' ') ++ s

/-- `formatInput` from `util_soil.py`, on numeric input. -/
def formatInput (input_to_format : ℚ) (space_available : ℕ) (decimal : ℕ) :
    String :=
  let formatted2str : String :=
    if pyInt input_to_format = -99 then toString (pyInt input_to_format)
    else if decimal ≠ 0 then pyFormatFixed input_to_format decimal
    else toString (pyInt input_to_format)
  padLeftSpaces formatted2str space_available

theorem length_stringMk (l : List Char) : (String.mk l).length = l.length := rfl

theorem padLeftSpaces_length (s : String) (w : ℕ) (h : s.length ≤ w) :
    (padLeftSpaces s w).length = w := by
  simp [padLeftSpaces, length_stringMk, Nat.sub_add_cancel h]

/-- **C5.** For every width ≥ 3 and every requested number of decimals,
`formatInput (-99) width decimal` is the bare string `"-99"` right-justified
to the width: the sentinel is never given decimal places. -/
theorem formatInput_sentinel (width decimal : ℕ) (h : 3 ≤ width) :
    formatInput (-99) width decimal =
        String.mk (List.replicate (width - 3) ' ') ++ "-99" ∧
      (formatInput (-99) width decimal).length = width := by
  have hint : pyInt (-99) = -99 := by
    have : ((-99 : ℚ)) < 0 := by norm_num
    simp only [pyInt, if_pos this]
    exact_mod_cast Int.ceil_intCast (α := ℚ) (-99)
  have hstr : toString (-99 : ℤ) = "-99" := rfl
  have hfmt : formatInput (-99) width decimal = padLeftSpaces "-99" width := by
    simp only [formatInput, hint]
    norm_num [hstr]
  refine ⟨?_, ?_⟩
  · rw [hfmt]; rfl
  · rw [hfmt]
    exact padLeftSpaces_length "-99" width h

theorem formatInput_sentinel_witness :
    3 ≤ 6 ∧
      (formatInput (-99) 6 2 = String.mk (List.replicate (6 - 3) ' ') ++ "-99" ∧
        (formatInput (-99) 6 2).length = 6) :=
  ⟨by decide, formatInput_sentinel 6 2 (by decide)⟩

/-- **C8.** Every value `v` with `-100 < v ≤ -99` (truncation toward zero
equal to `-99`, e.g. `-99.5`) is rendered by `formatInput` as the bare
sentinel `"-99"` right-justified, for every width and decimals: the
fractional part is silently discarded because the sentinel test compares
`int(v)` with `-99`. -/
theorem formatInput_near_sentinel (v : ℚ) (width decimal : ℕ)
    (h1 : -100 < v) (h2 : v ≤ -99) :
    formatInput v width decimal =
      String.mk (List.replicate (width - 3) ' ') ++ "-99" := by
  have hneg : v < 0 := lt_of_le_of_lt h2 (by norm_num)
  have hceil : ⌈v⌉ = -99 := by
    rw [Int.ceil_eq_iff]
    constructor
    · push_cast; linarith
    · push_cast; linarith
  have hint : pyInt v = -99 := by simp only [pyInt, if_pos hneg, hceil]
  have hstr : toString (-99 : ℤ) = "-99" := rfl
  have hfmt : formatInput v width decimal = padLeftSpaces "-99" width := by
    simp only [formatInput, hint]
    norm_num [hstr]
  rw [hfmt]; rfl

theorem formatInput_near_sentinel_witness :
    (-100 : ℚ) < -199 / 2 ∧ (-199 / 2 : ℚ) ≤ -99 ∧
      formatInput (-199 / 2) 7 3 =
        String.mk (List.replicate (7 - 3) ' ') ++ "-99" :=
  ⟨by norm_num, by norm_num,
    formatInput_near_sentinel (-199 / 2) 7 3 (by norm_num) (by norm_num)⟩

/-! ### util_soil.update_soil_profile

Source (`src/dssatpylib/util_soil.py`, lines 306-330):

    with open(soilFilePath, 'r+') as fsoil:
        soil_text = ''
        for line in fsoil:
            soil_text = soil_text + line
        soil_text = soil_text.replace(old_soil_profile, new_soil_profile)
        fsoil.truncate(0)
    with open(soilFilePath, 'w') as fsoil:
        fsoil.write(soil_text)

The file content is modelled as a `List Char`; rebuilding `soil_text`
line-by-line reproduces the content unchanged, so the written content is
`content.replace(old, new)`.  Python `str.replace` with no count replaces
every non-overlapping occurrence, scanning left to right; with an empty
pattern it inserts the replacement at every position.
-/

/-- Python `str.replace` with an empty pattern: the replacement is
inserted before every character and at the end. -/
def interleaveNew (new : List Char) : List Char → List Char
  | [] => new
  | c :: s => new ++ c :: interleaveNew new s

/-- Python `str.replace` for a non-empty pattern: scan left to right,
replacing each (non-overlapping) occurrence. -/
def replaceAllPos (old new : List Char) : List Char → List Char
  | [] => []
  | c :: s =>
    if _h : old ≠ [] ∧ old.isPrefixOf (c :: s) then
      new ++ replaceAllPos old new ((c :: s).drop old.length)
    else
      c :: replaceAllPos old new s
termination_by s => s.length
decreasing_by
  · simp only [List.length_drop, List.length_cons]
    have : 1 ≤ old.length := List.length_pos.mpr _h.1
    omega
  · simp

theorem replaceAllPos_nil (old new : List Char) :
    replaceAllPos old new [] = [] := by
  rw [replaceAllPos]

theorem replaceAllPos_cons_pos (old new : List Char) (c : Char) (s : List Char)
    (h1 : old ≠ []) (h2 : old.isPrefixOf (c :: s)) :
    replaceAllPos old new (c :: s) =
      new ++ replaceAllPos old new ((c :: s).drop old.length) := by
  rw [replaceAllPos, dif_pos ⟨h1, h2⟩]

theorem replaceAllPos_cons_neg (old new : List Char) (c : Char) (s : List Char)
    (h : ¬ (old ≠ [] ∧ old.isPrefixOf (c :: s))) :
    replaceAllPos old new (c :: s) = c :: replaceAllPos old new s := by
  rw [replaceAllPos, dif_neg h]

/-- Python `text.replace(old, new)` (no count argument). -/
def pyReplace (text old new : List Char) : List Char :=
  if old = [] then interleaveNew new text else replaceAllPos old new text

/-- `update_soil_profile` from `util_soil.py`: the content written back to
the soil file, as a function of the original file content and the old and
new soil-profile texts. -/
def update_soil_profile (content old_soil_profile new_soil_profile : List Char) :
    List Char :=
  pyReplace content old_soil_profile new_soil_profile

/-- Replacement of only the first occurrence, later occurrences left
unchanged.  Modelled from the spec sentence "replaces the first literal
occurrence of the old record's raw text with the newly formatted text";
used to compare the specified behaviour with the source's `str.replace`. -/
def replaceFirstOnly (old new : List Char) : List Char → List Char
  | [] => []
  | c :: s =>
    if old ≠ [] ∧ old.isPrefixOf (c :: s) then
      new ++ (c :: s).drop old.length
    else
      c :: replaceFirstOnly old new s

/-- **C3, counterexample.**  On file content `"XX"` with old text `"X"` and
new text `"Y"`, `update_soil_profile` writes `"YY"` — both occurrences are
replaced — while the claimed first-occurrence-only substitution would give
`"YX"`. -/
theorem update_soil_profile_not_first_only :
    update_soil_profile ['X', 'X'] ['X'] ['Y'] = ['Y', 'Y'] ∧
      replaceFirstOnly ['X'] ['Y'] ['X', 'X'] = ['Y', 'X'] ∧
      update_soil_profile ['X', 'X'] ['X'] ['Y'] ≠
        replaceFirstOnly ['X'] ['Y'] ['X', 'X'] := by
  have h1 : update_soil_profile ['X', 'X'] ['X'] ['Y'] = ['Y', 'Y'] := by
    simp [update_soil_profile, pyReplace, replaceAllPos, List.isPrefixOf]
  have h2 : replaceFirstOnly ['X'] ['Y'] ['X', 'X'] = ['Y', 'X'] := by
    simp [replaceFirstOnly, List.isPrefixOf]
  refine ⟨h1, h2, ?_⟩
  rw [h1, h2]
  decide

theorem replaceAllPos_of_not_occurs (old new : List Char) :
    ∀ content : List Char,
      (∀ i, i ≤ content.length → ¬ old.isPrefixOf (content.drop i)) →
      replaceAllPos old new content = content := by
  intro content
  induction content with
  | nil => intro _; exact replaceAllPos_nil old new
  | cons c s ih =>
    intro h
    have h0 : ¬ old.isPrefixOf (c :: s) := by
      have := h 0 (Nat.zero_le _)
      simpa using this
    rw [replaceAllPos_cons_neg old new c s (fun hc => h0 hc.2)]
    refine congrArg (c :: ·) (ih ?_)
    intro i hi
    have := h (i + 1) (by simpa using Nat.succ_le_succ hi)
    simpa using this

/-- **C10.**  When the old record text does not occur anywhere in the file
content (at no scan position is it a prefix of the remaining text — which
also rules out the empty pattern, since that occurs everywhere),
`update_soil_profile` writes the file content back unchanged. -/
theorem update_soil_profile_no_occurrence (content old new : List Char)
    (h : ∀ i, i ≤ content.length → ¬ old.isPrefixOf (content.drop i)) :
    update_soil_profile content old new = content := by
  have hold : old ≠ [] := by
    intro he
    have hend := h content.length (Nat.le_refl _)
    rw [List.drop_length, he] at hend
    exact hend rfl
  rw [update_soil_profile, pyReplace, if_neg hold]
  exact replaceAllPos_of_not_occurs old new content h

theorem update_soil_profile_no_occurrence_witness :
    (∀ i, i ≤ (['a', 'b', 'c'] : List Char).length →
      ¬ (['x', 'y'] : List Char).isPrefixOf ((['a', 'b', 'c'] : List Char).drop i)) ∧
      update_soil_profile ['a', 'b', 'c'] ['x', 'y'] ['q'] = ['a', 'b', 'c'] :=
  ⟨by decide, update_soil_profile_no_occurrence ['a', 'b', 'c'] ['x', 'y'] ['q']
    (by decide)⟩

/-- **C3, amended.**  If the old text is non-empty and its leftmost
occurrence in the content starts right after the prefix `a` (no occurrence
starts inside `a`), then `update_soil_profile` on `a ++ old ++ b` replaces
that leftmost occurrence and goes on rewriting the rest `b` the same way —
later occurrences are replaced too, not left unchanged. -/
theorem update_soil_profile_replaces_leftmost (a b old new : List Char)
    (hold : old ≠ [])
    (hleft : ∀ i, i < a.length → ¬ old.isPrefixOf ((a ++ old ++ b).drop i)) :
    update_soil_profile (a ++ old ++ b) old new =
      a ++ new ++ pyReplace b old new := by
  rw [update_soil_profile, pyReplace, if_neg hold, pyReplace, if_neg hold]
  induction a with
  | nil =>
    obtain ⟨o, os, rfl⟩ := List.exists_cons_of_ne_nil hold
    rw [List.nil_append, List.nil_append, List.cons_append]
    rw [replaceAllPos_cons_pos _ new o (os ++ b) hold
      (by rw [← List.cons_append, List.isPrefixOf_iff_prefix]
          exact List.prefix_append _ _)]
    rw [← List.cons_append, List.drop_left]
  | cons x a ih =>
    have h0 : ¬ old.isPrefixOf (x :: (a ++ old ++ b)) = true := by
      have := hleft 0 (by simp)
      simpa using this
    have hcons : (x :: a) ++ old ++ b = x :: (a ++ old ++ b) := by simp
    rw [hcons, replaceAllPos_cons_neg old new x (a ++ old ++ b)
      (fun hc => h0 hc.2)]
    have ha : replaceAllPos old new (a ++ old ++ b) =
        a ++ new ++ replaceAllPos old new b := by
      refine ih ?_
      intro i hi
      have := hleft (i + 1) (by simpa using Nat.succ_lt_succ hi)
      rw [hcons] at this
      simpa using this
    rw [ha]
    simp

theorem update_soil_profile_replaces_leftmost_witness :
    (['B', 'C'] : List Char) ≠ [] ∧
      (∀ i, i < (['A'] : List Char).length →
        ¬ (['B', 'C'] : List Char).isPrefixOf
          (((['A'] : List Char) ++ ['B', 'C'] ++ ['D', 'B', 'C']).drop i)) ∧
      update_soil_profile (['A'] ++ ['B', 'C'] ++ ['D', 'B', 'C']) ['B', 'C'] ['Z'] =
        ['A'] ++ ['Z'] ++ pyReplace ['D', 'B', 'C'] ['B', 'C'] ['Z'] :=
  ⟨by decide, by decide,
    update_soil_profile_replaces_leftmost ['A'] ['D', 'B', 'C'] ['B', 'C'] ['Z']
      (by decide) (by decide)⟩

/-! ### util_dssat.create_DSSBatch

Source (`src/dssatpylib/util_dssat.py`, lines 107-148).  The treatment
scan:

    param = 0
    for line in Fexp.readlines():
        if line.startswith('@N R O C TNAME...'):
            param = 1
            continue
        if param == 1 and line.startswith('\n'):
            break
        if param == 1:
            treatments_text = line
            if selected_treatments is not None and \
            treatments_text[9:33].strip() in selected_treatments:
                TRTNO.append(treatments_text[:2]); SQ.append(...); ...
            else:
                TRTNO.append(treatments_text[:2]); SQ.append(...); ...

and one data row per collected treatment:

    batch_text = ''.join([batch_text, ExpFile.ljust(94),
                          ...TRTNO...rjust(5), ...OP...rjust(7),
                          ...SQ...rjust(7), ...OP...rjust(7),
                          ...CO...rjust(7), '\n'])

The file is modelled as its list of lines without trailing newlines, so
`line.startswith('\n')` (a blank line) becomes `line = ""`.  Note that the
two branches of the membership test append identical tuples.
-/

/-- Python slice `s[a:b]` on a string. -/
def pySlice (s : String) (a b : ℕ) : String :=
  String.mk ((s.toList.drop a).take (b - a))

/-- Python's whitespace set for `str.strip()`. -/
def pyIsSpace (c : Char) : Bool :=
  c = ' ' ∨ c = '\t' ∨ c = '\n' ∨ c = '\x0b' ∨ c = '\x0c' ∨ c = '\r'

/-- Python `s.strip()`. -/
def pyStrip (s : String) : String :=
  String.mk (((s.toList.dropWhile pyIsSpace).reverse.dropWhile pyIsSpace).reverse)

/-- Python `s.startswith(pre)`. -/
def pyStartsWith (s pre : String) : Bool :=
  pre.toList.isPrefixOf s.toList

/-- Python `s.ljust(w)` with spaces. -/
def padRightSpaces (s : String) (w : ℕ) : String :=
  s ++ String.mk (List.replicate (w - s.length) ' ')

/-- One treatment row as sliced by `create_DSSBatch` from an experiment
file line. -/
structure TreatmentRow where
  trtno : String
  sq : String
  op : String
  co : String
  tname : String
deriving DecidableEq

/-- The fixed-offset slices `[:2]`, `[2:4]`, `[4:6]`, `[6:8]`, `[9:33]`. -/
def mkTreatmentRow (line : String) : TreatmentRow where
  trtno := pySlice line 0 2
  sq := pySlice line 2 4
  op := pySlice line 4 6
  co := pySlice line 6 8
  tname := pySlice line 9 33

/-- The treatment-scanning loop of `create_DSSBatch`; `param` is the
in-treatment-section flag.  The source's `if ... in selected_treatments`
branch and its `else` branch append the same tuple, which the embedding
reproduces verbatim. -/
def collectTreatments (selected : Option (List String)) :
    Bool → List String → List TreatmentRow
  | _, [] => []
  | param, line :: rest =>
    if pyStartsWith line "@N R O C TNAME..." then
      collectTreatments selected true rest
    else if param ∧ line = "" then
      []
    else if param then
      (if selected.isSome ∧ (selected.getD []).contains (pyStrip (pySlice line 9 33)) then
        mkTreatmentRow line
      else
        mkTreatmentRow line) :: collectTreatments selected param rest
    else
      collectTreatments selected param rest

/-- One data row of the generated batch file (the 94/5/7/7/7/7 layout;
the `RP` slot is filled from `OP`, as in the source). -/
def batchDataRow (expFile : String) (r : TreatmentRow) : String :=
  padRightSpaces expFile 94 ++ padLeftSpaces r.trtno 5 ++
    padLeftSpaces r.op 7 ++ padLeftSpaces r.sq 7 ++
    padLeftSpaces r.op 7 ++ padLeftSpaces r.co 7

/-- The data rows of the batch file written by `create_DSSBatch`, as a
function of the experiment file's lines, the treatment-name filter and the
experiment file name. -/
def create_DSSBatch_dataRows (lines : List String)
    (selected : Option (List String)) (expFile : String) : List String :=
  (collectTreatments selected false lines).map (batchDataRow expFile)

theorem collectTreatments_filter_irrelevant (sel sel' : Option (List String)) :
    ∀ (param : Bool) (lines : List String),
      collectTreatments sel param lines = collectTreatments sel' param lines := by
  intro param lines
  induction lines generalizing param with
  | nil => rfl
  | cons line rest ih =>
    simp only [collectTreatments, ite_self]
    split
    · exact ih true
    · split
      · rfl
      · split
        · exact congrArg _ (ih param)
        · exact ih param

/-- A three-treatment experiment file with names IRR1, IRR2, RAINFED. -/
def exampleExpLines : List String :=
  ["*TREATMENTS                        -------------FACTOR LEVELS------------",
   "@N R O C TNAME.................... CU FL SA IC MP MI MF MR MC MT ME MH SM",
   " 1 1 1 0 IRR1",
   " 2 1 1 0 IRR2",
   " 3 1 1 0 RAINFED",
   ""]

set_option maxRecDepth 8192 in
/-- **C1.**  The treatment-name filter of `create_DSSBatch` has no effect:
the generated batch file always contains one data row per treatment row of
the experiment file (the two branches of the filter test append identical
tuples).  In particular, for the 3-treatment file with names IRR1, IRR2,
RAINFED and filter [IRR1, RAINFED], the batch file has 3 data rows — not
the 2 rows the claim requires. -/
theorem create_DSSBatch_filter_has_no_effect :
    (∀ (lines : List String) (selected : Option (List String)) (expFile : String),
      create_DSSBatch_dataRows lines selected expFile =
        create_DSSBatch_dataRows lines none expFile) ∧
      (create_DSSBatch_dataRows exampleExpLines (some ["IRR1", "RAINFED"])
          "EXP1.SQX").length = 3 :=
  ⟨fun lines selected expFile =>
    congrArg (List.map (batchDataRow expFile))
      (collectTreatments_filter_irrelevant selected none false lines),
   by decide⟩

/-! ### util_efficiency

Source (`src/dssatpylib/util_efficiency.py`).  Series are `List ℚ`;
elementwise numpy operations on equal-length arrays are modelled with
`List.zip`.  `np.mean` is the sum over the length, `np.std` the square
root of the population variance, `mean_squared_error(..., squared=False)`
the square root of the mean squared error, and `stats.pearsonr` the
centered dot product over the product of the centered norms.  `x ** 0.5`
on a non-negative argument is the square root.
-/

/-- `np.mean` of a series. -/
def npMean (xs : List ℚ) : ℚ := xs.sum / xs.length

/-- `np.sum((observed - simulated)**2)`: the sum of squared residuals. -/
def sqErrSum (observed simulated : List ℚ) : ℚ :=
  ((observed.zip simulated).map (fun p => (p.1 - p.2) ^ 2)).sum

/-- `mean_squared_error(observed, simulated)` (population mean). -/
def mseQ (observed simulated : List ℚ) : ℚ :=
  sqErrSum observed simulated / observed.length

/-- `np.sum((xs - np.mean(xs))**2)`: sum of squared deviations from the
mean. -/
def sqDevSum (xs : List ℚ) : ℚ :=
  (xs.map (fun x => (x - npMean xs) ^ 2)).sum

/-- Population variance `np.std(xs)**2`. -/
def npVar (xs : List ℚ) : ℚ := sqDevSum xs / xs.length

/-- `np.std` (population standard deviation). -/
noncomputable def npStd (xs : List ℚ) : ℝ := Real.sqrt (npVar xs)

/-- `RMSE` from `util_efficiency.py`:
`mean_squared_error(observed, simulated, squared=False)`. -/
noncomputable def RMSE (observed simulated : List ℚ) : ℝ :=
  Real.sqrt (mseQ observed simulated)

/-- `nRMSE` from `util_efficiency.py`: RMSE over `np.mean(observed)`. -/
noncomputable def nRMSE (observed simulated : List ℚ) : ℝ :=
  RMSE observed simulated / (npMean observed : ℝ)

/-- `RSR` from `util_efficiency.py`: RMSE over `np.std(observed)`. -/
noncomputable def RSR (observed simulated : List ℚ) : ℝ :=
  RMSE observed simulated / npStd observed

/-- The numerator of `NSE`: `np.sum((observed-simulated)**2)`. -/
def nseNum (observed simulated : List ℚ) : ℚ := sqErrSum observed simulated

/-- The denominator of `NSE`:
`np.sum((observed-np.mean(simulated))**2)` — deviations of the *observed*
values from the *simulated* mean, exactly as in the source. -/
def nseDen (observed simulated : List ℚ) : ℚ :=
  (observed.map (fun o => (o - npMean simulated) ^ 2)).sum

/-- `NSE` from `util_efficiency.py`: `1 - num/den`. -/
def NSE (observed simulated : List ℚ) : ℚ :=
  1 - nseNum observed simulated / nseDen observed simulated

/-- Centered cross term of `stats.pearsonr`:
`sum((o - mean(observed)) * (s - mean(simulated)))`. -/
def covSum (observed simulated : List ℚ) : ℚ :=
  ((observed.zip simulated).map
    (fun p => (p.1 - npMean observed) * (p.2 - npMean simulated))).sum

/-- `stats.pearsonr` (the correlation coefficient it returns). -/
noncomputable def pearsonr (observed simulated : List ℚ) : ℝ :=
  (covSum observed simulated : ℝ) /
    Real.sqrt ((sqDevSum observed : ℝ) * (sqDevSum simulated : ℝ))

/-- `KGE` from `util_efficiency.py`:
`1 - ((r-1)**2 + (std_o/std_s - 1)**2 + (mean_o/mean_s - 1)**2)**0.5`. -/
noncomputable def KGE (observed simulated : List ℚ) : ℝ :=
  1 - Real.sqrt ((pearsonr observed simulated - 1) ^ 2 +
    (npStd observed / npStd simulated - 1) ^ 2 +
    ((npMean observed : ℝ) / (npMean simulated : ℝ) - 1) ^ 2)

theorem listMapSum_eq_rangeSum (f : ℚ → ℚ) (l : List ℚ) :
    (l.map f).sum = ∑ i in Finset.range l.length, f (l.getD i 0) := by
  induction l with
  | nil => simp
  | cons x xs ih =>
    rw [List.map_cons, List.sum_cons, List.length_cons, Finset.sum_range_succ']
    simp only [List.getD_cons_succ, List.getD_cons_zero]
    rw [ih]
    ring

theorem zipMapSum_eq_rangeSum (f : ℚ → ℚ → ℚ) :
    ∀ (l1 l2 : List ℚ), l1.length = l2.length →
      ((l1.zip l2).map (fun p => f p.1 p.2)).sum =
        ∑ i in Finset.range l1.length, f (l1.getD i 0) (l2.getD i 0) := by
  intro l1
  induction l1 with
  | nil => intro l2 _; simp
  | cons x xs ih =>
    intro l2 hlen
    match l2 with
    | [] => simp at hlen
    | y :: ys =>
      have h : xs.length = ys.length := by simpa using hlen
      rw [List.zip_cons_cons, List.map_cons, List.sum_cons, List.length_cons,
        Finset.sum_range_succ']
      simp only [List.getD_cons_succ, List.getD_cons_zero]
      rw [ih ys h]
      ring

/-- **C4.**  `NSE` equals `1` minus the sum of squared residuals over the
sum of squared deviations of the observed values from the mean of the
*simulated* series (not the canonical observed mean). -/
theorem NSE_denominator_uses_simulated_mean (observed simulated : List ℚ)
    (hlen : observed.length = simulated.length) (hne : observed ≠ [])
    (hden : nseDen observed simulated ≠ 0) :
    NSE observed simulated =
      1 - (∑ i in Finset.range observed.length,
            (observed.getD i 0 - simulated.getD i 0) ^ 2) /
          (∑ i in Finset.range observed.length,
            (observed.getD i 0 - simulated.sum / simulated.length) ^ 2) := by
  have hnum : nseNum observed simulated =
      ∑ i in Finset.range observed.length,
        (observed.getD i 0 - simulated.getD i 0) ^ 2 :=
    zipMapSum_eq_rangeSum (fun a b => (a - b) ^ 2) observed simulated hlen
  have hd : nseDen observed simulated =
      ∑ i in Finset.range observed.length,
        (observed.getD i 0 - simulated.sum / simulated.length) ^ 2 :=
    listMapSum_eq_rangeSum (fun o => (o - npMean simulated) ^ 2) observed
  rw [NSE, hnum, hd]

theorem NSE_denominator_uses_simulated_mean_witness :
    ([(1 : ℚ), 2] : List ℚ).length = ([(2 : ℚ), 2] : List ℚ).length ∧
      ([(1 : ℚ), 2] : List ℚ) ≠ [] ∧
      nseDen [(1 : ℚ), 2] [(2 : ℚ), 2] ≠ 0 ∧
      NSE [(1 : ℚ), 2] [(2 : ℚ), 2] =
        1 - (∑ i in Finset.range ([(1 : ℚ), 2] : List ℚ).length,
              (([(1 : ℚ), 2] : List ℚ).getD i 0 -
                ([(2 : ℚ), 2] : List ℚ).getD i 0) ^ 2) /
            (∑ i in Finset.range ([(1 : ℚ), 2] : List ℚ).length,
              (([(1 : ℚ), 2] : List ℚ).getD i 0 -
                ([(2 : ℚ), 2] : List ℚ).sum / ([(2 : ℚ), 2] : List ℚ).length) ^ 2) :=
  ⟨rfl, by decide, by norm_num [nseDen, npMean],
    NSE_denominator_uses_simulated_mean [1, 2] [2, 2] rfl (by decide)
      (by norm_num [nseDen, npMean])⟩

theorem sqErrSum_cons (a b : ℚ) (l1 l2 : List ℚ) :
    sqErrSum (a :: l1) (b :: l2) = (a - b) ^ 2 + sqErrSum l1 l2 := by
  simp [sqErrSum]

theorem sqErrSum_nonneg (l1 l2 : List ℚ) : 0 ≤ sqErrSum l1 l2 := by
  refine List.sum_nonneg ?_
  intro x hx
  obtain ⟨p, _, rfl⟩ := List.mem_map.mp hx
  exact sq_nonneg _

theorem sqDevSum_nonneg (xs : List ℚ) : 0 ≤ sqDevSum xs := by
  refine List.sum_nonneg ?_
  intro x hx
  obtain ⟨a, _, rfl⟩ := List.mem_map.mp hx
  exact sq_nonneg _

theorem sqErrSum_eq_zero_iff :
    ∀ (l1 l2 : List ℚ), l1.length = l2.length →
      (sqErrSum l1 l2 = 0 ↔ l1 = l2) := by
  intro l1
  induction l1 with
  | nil =>
    intro l2 hlen
    match l2 with
    | [] => simp [sqErrSum]
    | y :: ys => simp at hlen
  | cons a l1 ih =>
    intro l2 hlen
    match l2 with
    | [] => simp at hlen
    | b :: l2 =>
      have h : l1.length = l2.length := by simpa using hlen
      rw [sqErrSum_cons]
      constructor
      · intro hz
        have h1 : (a - b) ^ 2 = 0 ∧ sqErrSum l1 l2 = 0 :=
          (add_eq_zero_iff_of_nonneg (sq_nonneg _) (sqErrSum_nonneg l1 l2)).mp hz
        have hab : a = b := by
          have := pow_eq_zero_iff (n := 2) (by norm_num) |>.mp h1.1
          linarith [sub_eq_zero.mp this]
        have htl : l1 = l2 := (ih l2 h).mp h1.2
        rw [hab, htl]
      · intro he
        obtain ⟨rfl, rfl⟩ : a = b ∧ l1 = l2 := by
          constructor
          · exact (List.cons_eq_cons.mp he).1
          · exact (List.cons_eq_cons.mp he).2
        rw [(ih l1 rfl).mpr rfl]
        ring

theorem sqErrSum_centered :
    ∀ (l1 l2 : List ℚ) (x y : ℚ), l1.length = l2.length →
      sqErrSum (l1.map (fun a => a - x)) (l2.map (fun b => b - y)) =
        (l1.map (fun a => (a - x) ^ 2)).sum + (l2.map (fun b => (b - y) ^ 2)).sum -
          2 * ((l1.zip l2).map (fun p => (p.1 - x) * (p.2 - y))).sum := by
  intro l1
  induction l1 with
  | nil =>
    intro l2 x y hlen
    match l2 with
    | [] => simp [sqErrSum]
    | b :: l2 => simp at hlen
  | cons a l1 ih =>
    intro l2 x y hlen
    match l2 with
    | [] => simp at hlen
    | b :: l2 =>
      have h : l1.length = l2.length := by simpa using hlen
      rw [List.map_cons, List.map_cons, sqErrSum_cons, ih l2 x y h]
      simp only [List.map_cons, List.sum_cons, List.zip_cons_cons]
      ring

/-- **C6.**  For equal-length non-empty series with nonzero observed mean
and nonzero observed and simulated standard deviations (equivalently,
nonzero population variances, since `np.std = sqrt(var)` and the variance
is non-negative): RMSE, nRMSE and RSR are zero exactly when the simulated
series equals the observed one; and under the additional hypothesis that
the Pearson correlation is exactly 1, KGE equals 1 exactly when the series
are equal. -/
theorem error_metrics_zero_and_KGE_one_iff (observed simulated : List ℚ)
    (hlen : observed.length = simulated.length) (hne : observed ≠ [])
    (hmean : npMean observed ≠ 0)
    (hvaro : npVar observed ≠ 0) (hvars : npVar simulated ≠ 0) :
    (RMSE observed simulated = 0 ↔ observed = simulated) ∧
      (nRMSE observed simulated = 0 ↔ observed = simulated) ∧
      (RSR observed simulated = 0 ↔ observed = simulated) ∧
      (pearsonr observed simulated = 1 →
        (KGE observed simulated = 1 ↔ observed = simulated)) := by
  have hlen0 : observed.length ≠ 0 := by
    simpa [List.length_eq_zero] using hne
  have hnQ : (observed.length : ℚ) ≠ 0 := Nat.cast_ne_zero.mpr hlen0
  have hmse_nonneg : 0 ≤ mseQ observed simulated :=
    div_nonneg (sqErrSum_nonneg _ _) (Nat.cast_nonneg _)
  have hrmse : RMSE observed simulated = 0 ↔ observed = simulated := by
    rw [RMSE, Real.sqrt_eq_zero (by exact_mod_cast hmse_nonneg)]
    constructor
    · intro h
      have h0 : mseQ observed simulated = 0 := by exact_mod_cast h
      have hsum : sqErrSum observed simulated = 0 := by
        rcases div_eq_zero_iff.mp h0 with h1 | h2
        · exact h1
        · exact absurd h2 hnQ
      exact (sqErrSum_eq_zero_iff observed simulated hlen).mp hsum
    · intro h
      have hsum : sqErrSum observed simulated = 0 :=
        (sqErrSum_eq_zero_iff observed simulated hlen).mpr h
      have h0 : mseQ observed simulated = 0 := by rw [mseQ, hsum, zero_div]
      exact_mod_cast h0
  have hmeanR : (npMean observed : ℝ) ≠ 0 := by exact_mod_cast hmean
  have hnrmse : nRMSE observed simulated = 0 ↔ observed = simulated := by
    rw [nRMSE, div_eq_zero_iff]
    constructor
    · rintro (h | h)
      · exact hrmse.mp h
      · exact absurd h hmeanR
    · intro h
      exact Or.inl (hrmse.mpr h)
  have hvaroR : (0 : ℝ) < (npVar observed : ℝ) := by
    have h1 : 0 ≤ npVar observed :=
      div_nonneg (sqDevSum_nonneg _) (Nat.cast_nonneg _)
    have h2 : 0 < npVar observed := lt_of_le_of_ne h1 (Ne.symm hvaro)
    exact_mod_cast h2
  have hstdo : npStd observed ≠ 0 := Real.sqrt_ne_zero'.mpr hvaroR
  have hrsr : RSR observed simulated = 0 ↔ observed = simulated := by
    rw [RSR, div_eq_zero_iff]
    constructor
    · rintro (h | h)
      · exact hrmse.mp h
      · exact absurd h hstdo
    · intro h
      exact Or.inl (hrmse.mpr h)
  refine ⟨hrmse, hnrmse, hrsr, ?_⟩
  intro hr
  have hvarsR : (0 : ℝ) < (npVar simulated : ℝ) := by
    have h1 : 0 ≤ npVar simulated :=
      div_nonneg (sqDevSum_nonneg _) (Nat.cast_nonneg _)
    have h2 : 0 < npVar simulated := lt_of_le_of_ne h1 (Ne.symm hvars)
    exact_mod_cast h2
  have hstds : npStd simulated ≠ 0 := Real.sqrt_ne_zero'.mpr hvarsR
  constructor
  · intro hk
    rw [KGE] at hk
    have hsqrt0 : Real.sqrt ((pearsonr observed simulated - 1) ^ 2 +
        (npStd observed / npStd simulated - 1) ^ 2 +
        ((npMean observed : ℝ) / (npMean simulated : ℝ) - 1) ^ 2) = 0 := by
      linarith
    have hA_le : (pearsonr observed simulated - 1) ^ 2 +
        (npStd observed / npStd simulated - 1) ^ 2 +
        ((npMean observed : ℝ) / (npMean simulated : ℝ) - 1) ^ 2 ≤ 0 :=
      Real.sqrt_eq_zero'.mp hsqrt0
    have h2 : (npStd observed / npStd simulated - 1) ^ 2 = 0 := by
      have e1 := sq_nonneg (pearsonr observed simulated - 1)
      have e2 := sq_nonneg (npStd observed / npStd simulated - 1)
      have e3 := sq_nonneg
        ((npMean observed : ℝ) / (npMean simulated : ℝ) - 1)
      linarith
    have h3 : ((npMean observed : ℝ) / (npMean simulated : ℝ) - 1) ^ 2 = 0 := by
      have e1 := sq_nonneg (pearsonr observed simulated - 1)
      have e2 := sq_nonneg (npStd observed / npStd simulated - 1)
      have e3 := sq_nonneg
        ((npMean observed : ℝ) / (npMean simulated : ℝ) - 1)
      linarith
    have hdivstd : npStd observed / npStd simulated = 1 := by
      have := sub_eq_zero.mp (pow_eq_zero_iff (two_ne_zero) |>.mp h2)
      linarith
    have hstdeq : npStd observed = npStd simulated :=
      (div_eq_one_iff_eq hstds).mp hdivstd
    have hvar_eq : npVar observed = npVar simulated := by
      have hR : (npVar observed : ℝ) = (npVar simulated : ℝ) :=
        (Real.sqrt_inj (le_of_lt hvaroR) (le_of_lt hvarsR)).mp hstdeq
      exact_mod_cast hR
    have hmuratio : (npMean observed : ℝ) / (npMean simulated : ℝ) = 1 := by
      have := sub_eq_zero.mp (pow_eq_zero_iff (two_ne_zero) |>.mp h3)
      linarith
    have hmusne : (npMean simulated : ℝ) ≠ 0 := by
      intro h0
      rw [h0, div_zero] at hmuratio
      norm_num at hmuratio
    have hmu : npMean observed = npMean simulated := by
      have hR : (npMean observed : ℝ) = (npMean simulated : ℝ) :=
        (div_eq_one_iff_eq hmusne).mp hmuratio
      exact_mod_cast hR
    have hSS : sqDevSum observed = sqDevSum simulated := by
      rw [npVar, npVar, ← hlen] at hvar_eq
      field_simp [hnQ] at hvar_eq
      exact hvar_eq
    have hSSo_pos : 0 < sqDevSum observed := by
      rcases eq_or_lt_of_le (sqDevSum_nonneg observed) with h0 | h0
      · exact absurd (by rw [npVar, ← h0, zero_div]) hvaro
      · exact h0
    have hSSoR : (0 : ℝ) < (sqDevSum observed : ℝ) := by exact_mod_cast hSSo_pos
    have hped : pearsonr observed simulated =
        (covSum observed simulated : ℝ) / (sqDevSum observed : ℝ) := by
      rw [pearsonr, ← hSS, Real.sqrt_mul_self (le_of_lt hSSoR)]
    have hcovQ : covSum observed simulated = sqDevSum observed := by
      rw [hped] at hr
      have hR : (covSum observed simulated : ℝ) = (sqDevSum observed : ℝ) :=
        (div_eq_one_iff_eq (ne_of_gt hSSoR)).mp hr
      exact_mod_cast hR
    have hcent : sqErrSum (observed.map (fun a => a - npMean observed))
        (simulated.map (fun b => b - npMean simulated)) = 0 := by
      rw [sqErrSum_centered observed simulated (npMean observed)
        (npMean simulated) hlen]
      rw [show (observed.map (fun a => (a - npMean observed) ^ 2)).sum =
        sqDevSum observed from rfl]
      rw [show (simulated.map (fun b => (b - npMean simulated) ^ 2)).sum =
        sqDevSum simulated from rfl]
      rw [show ((observed.zip simulated).map
        (fun p => (p.1 - npMean observed) * (p.2 - npMean simulated))).sum =
        covSum observed simulated from rfl]
      rw [← hSS, hcovQ]
      ring
    have hmaps : observed.map (fun a => a - npMean observed) =
        simulated.map (fun b => b - npMean simulated) :=
      (sqErrSum_eq_zero_iff _ _ (by simp [hlen])).mp hcent
    rw [← hmu] at hmaps
    exact List.map_injective_iff.mpr sub_left_injective hmaps
  · intro h
    rw [KGE, hr, ← h, div_self hstdo, div_self hmeanR]
    norm_num

theorem error_metrics_zero_and_KGE_one_iff_witness :
    ([(1 : ℚ), 3] : List ℚ).length = ([(1 : ℚ), 3] : List ℚ).length ∧
      ([(1 : ℚ), 3] : List ℚ) ≠ [] ∧
      npMean [(1 : ℚ), 3] ≠ 0 ∧
      npVar [(1 : ℚ), 3] ≠ 0 ∧
      ((RMSE [(1 : ℚ), 3] [(1 : ℚ), 3] = 0 ↔
          ([(1 : ℚ), 3] : List ℚ) = [(1 : ℚ), 3]) ∧
        (nRMSE [(1 : ℚ), 3] [(1 : ℚ), 3] = 0 ↔
          ([(1 : ℚ), 3] : List ℚ) = [(1 : ℚ), 3]) ∧
        (RSR [(1 : ℚ), 3] [(1 : ℚ), 3] = 0 ↔
          ([(1 : ℚ), 3] : List ℚ) = [(1 : ℚ), 3]) ∧
        (pearsonr [(1 : ℚ), 3] [(1 : ℚ), 3] = 1 →
          (KGE [(1 : ℚ), 3] [(1 : ℚ), 3] = 1 ↔
            ([(1 : ℚ), 3] : List ℚ) = [(1 : ℚ), 3]))) :=
  ⟨rfl, by decide, by norm_num [npMean], by norm_num [npVar, sqDevSum, npMean],
    error_metrics_zero_and_KGE_one_iff [1, 3] [1, 3] rfl (by decide)
      (by norm_num [npMean]) (by norm_num [npVar, sqDevSum, npMean])
      (by norm_num [npVar, sqDevSum, npMean])⟩

/-! ### util_soil.fix_missing_soil_param

Source (`src/dssatpylib/util_soil.py`, lines 257-301): for each expected
parameter name absent from the dataframe's columns, a new column of
`'-99'` strings (one per row) is appended:

    for soil_param in soil_info_params:
        if not soil_param in soil_info_df.columns:
            soil_info_df[soil_param] = ['-99' for _ in range(len(soil_info_df))]
    ... same for tier 1 ...
    if 'SLPX' in soil_layered_info_df.columns:
        ... same for tier 2 ...
    if 'ALFVG' in soil_layered_info_df.columns:
        ... same for tier 3 ...

A dataframe is modelled as its row count plus its ordered list of named
columns; assigning a fresh column appends it.  The `'SLPX'`/`'ALFVG'`
checks run against the dataframe as already mutated by the earlier loops,
which the staged composition below reproduces (neither name is in the
tier-1 or tier-2 parameter lists, so the checks coincide with membership
in the input's columns).
-/

/-- A dataframe cell: a parsed number or a raw string. -/
inductive SoilCell where
  | num (q : ℚ)
  | str (s : String)
deriving DecidableEq

/-- A pandas dataframe: a row count and ordered named columns. -/
structure SoilTable where
  nRows : ℕ
  cols : List (String × List SoilCell)
deriving DecidableEq

/-- Look a column up by name in an ordered column list. -/
def colsLookup (cols : List (String × List SoilCell)) (name : String) :
    Option (List SoilCell) :=
  (cols.find? (fun c => c.1 == name)).map (fun c => c.2)

/-- Look a column up by name. -/
def colLookup (t : SoilTable) (name : String) : Option (List SoilCell) :=
  colsLookup t.cols name

/-- `name in df.columns`. -/
def hasCol (t : SoilTable) (name : String) : Bool :=
  (colLookup t name).isSome

/-- `df[name] = vals` for a fresh column: pandas appends it at the end. -/
def addCol (t : SoilTable) (name : String) (vals : List SoilCell) : SoilTable :=
  { t with cols := t.cols ++ [(name, vals)] }

/-- `['-99' for _ in range(len(df))]`. -/
def sentinelCol (t : SoilTable) : List SoilCell :=
  List.replicate t.nRows (SoilCell.str "-99")

/-- One backfill loop of `fix_missing_soil_param`. -/
def backfill (params : List String) (t : SoilTable) : SoilTable :=
  params.foldl
    (fun acc p => if hasCol acc p then acc else addCol acc p (sentinelCol acc)) t

def soil_info_params : List String :=
  ["SCOM", "SALB", "SLU1", "SLDR", "SLRO",
   "SLNF", "SLPF", "SMHB", "SMPX", "SMKE"]

def soil_layered_info_params_tier1 : List String :=
  ["SLB", "SLMH", "SLLL", "SDUL", "SSAT", "SRGF", "SSKS", "SBDM", "SLOC",
   "SLCL", "SLSI", "SLCF", "SLNI", "SLHW", "SLHB", "SCEC", "SADC"]

def soil_layered_info_params_tier2 : List String :=
  ["SLB", "SLPX", "SLPT", "SLPO", "CACO3", "SLAL", "SLFE", "SLMN", "SLBS",
   "SLPA", "SLPB", "SLKE", "SLMG", "SLNA", "SLSU", "SLEC", "SLCA"]

def soil_layered_info_params_tier3 : List String :=
  ["SLB", "ALFVG", "MVG", "NVG", "WCRES"]

/-- The tier-2 loop, guarded by `'SLPX' in df.columns`. -/
def backfillTier2 (t : SoilTable) : SoilTable :=
  if hasCol t "SLPX" then backfill soil_layered_info_params_tier2 t else t

/-- The tier-3 loop, guarded by `'ALFVG' in df.columns`. -/
def backfillTier3 (t : SoilTable) : SoilTable :=
  if hasCol t "ALFVG" then backfill soil_layered_info_params_tier3 t else t

/-- `fix_missing_soil_param` from `util_soil.py`. -/
def fix_missing_soil_param (soil_info_df soil_layered_info_df : SoilTable) :
    SoilTable × SoilTable :=
  (backfill soil_info_params soil_info_df,
   backfillTier3 (backfillTier2
     (backfill soil_layered_info_params_tier1 soil_layered_info_df)))

/-- The column a field ends up with: its original values when present on
input, otherwise one sentinel `'-99'` per row. -/
def origOrSentinel (t : SoilTable) (p : String) : List SoilCell :=
  (colLookup t p).getD (sentinelCol t)

theorem nRows_addCol (t : SoilTable) (name : String) (vals : List SoilCell) :
    (addCol t name vals).nRows = t.nRows := rfl

theorem nRows_backfill (params : List String) :
    ∀ t : SoilTable, (backfill params t).nRows = t.nRows := by
  induction params with
  | nil => intro t; rfl
  | cons p ps ih =>
    intro t
    rw [backfill, List.foldl_cons]
    by_cases h : hasCol t p
    · rw [if_pos h]; exact ih t
    · rw [if_neg h]; exact (ih _).trans (nRows_addCol t p _)

theorem sentinelCol_backfill (params : List String) (t : SoilTable) :
    sentinelCol (backfill params t) = sentinelCol t := by
  simp only [sentinelCol, nRows_backfill]

theorem sentinelCol_addCol (t : SoilTable) (name : String) (vals : List SoilCell) :
    sentinelCol (addCol t name vals) = sentinelCol t := by
  simp only [sentinelCol, nRows_addCol]

theorem colLookup_addCol (t : SoilTable) (q name : String) (vals : List SoilCell) :
    colLookup (addCol t q vals) name =
      (colLookup t name).or (if q == name then some vals else none) := by
  show colsLookup (t.cols ++ [(q, vals)]) name = _
  rw [colsLookup, List.find?_append]
  cases h : List.find? (fun c => c.1 == name) t.cols
  · by_cases hq : q == name
    · simp [colsLookup, colLookup, h, List.find?, hq]
    · simp [colsLookup, colLookup, h, List.find?, hq]
  · simp [colsLookup, colLookup, h]

theorem colLookup_backfill_of_some (params : List String) :
    ∀ (t : SoilTable) (name : String) (v : List SoilCell),
      colLookup t name = some v → colLookup (backfill params t) name = some v := by
  induction params with
  | nil => intro t name v h; exact h
  | cons p ps ih =>
    intro t name v h
    rw [backfill, List.foldl_cons, ← backfill]
    by_cases hp : hasCol t p
    · rw [if_pos hp]; exact ih t name v h
    · rw [if_neg hp]
      refine ih _ name v ?_
      rw [colLookup_addCol, h]
      simp

theorem colLookup_backfill_of_not_mem (params : List String) :
    ∀ (t : SoilTable) (name : String), name ∉ params →
      colLookup (backfill params t) name = colLookup t name := by
  induction params with
  | nil => intro t name _; rfl
  | cons p ps ih =>
    intro t name hn
    have hne : p ≠ name := fun he => hn (by rw [he]; exact List.mem_cons_self _ _)
    have hps : name ∉ ps := fun hm => hn (List.mem_cons_of_mem _ hm)
    rw [backfill, List.foldl_cons, ← backfill]
    by_cases hp : hasCol t p
    · rw [if_pos hp]; exact ih t name hps
    · rw [if_neg hp]
      rw [ih _ name hps, colLookup_addCol]
      have hqf : (p == name) = false := by simpa using hne
      rw [hqf]
      simp

theorem hasCol_backfill_of_not_mem (params : List String) (t : SoilTable)
    (name : String) (h : name ∉ params) :
    hasCol (backfill params t) name = hasCol t name := by
  rw [hasCol, hasCol, colLookup_backfill_of_not_mem params t name h]

theorem colLookup_backfill_mem (params : List String) :
    ∀ (t : SoilTable) (p : String), p ∈ params →
      colLookup (backfill params t) p =
        some ((colLookup t p).getD (sentinelCol t)) := by
  induction params with
  | nil => intro t p hp; simp at hp
  | cons q ps ih =>
    intro t p hp
    rw [backfill, List.foldl_cons, ← backfill]
    by_cases hq : hasCol t q
    · rw [if_pos hq]
      rcases List.mem_cons.mp hp with rfl | hps
      · obtain ⟨v, hv⟩ := Option.isSome_iff_exists.mp hq
        rw [colLookup_backfill_of_some ps t p v hv, hv, Option.getD_some]
      · exact ih t p hps
    · rw [if_neg hq]
      have hnone : colLookup t q = none := Option.not_isSome_iff_eq_none.mp hq
      have haddq : colLookup (addCol t q (sentinelCol t)) q =
          some (sentinelCol t) := by
        rw [colLookup_addCol, hnone]
        simp
      rcases List.mem_cons.mp hp with rfl | hps
      · rw [colLookup_backfill_of_some ps _ p _ haddq, hnone, Option.getD_none]
      · rw [ih _ p hps, sentinelCol_addCol]
        by_cases hpq : p = q
        · subst hpq
          rw [haddq, hnone, Option.getD_none, Option.getD_some]
        · have hst : colLookup (addCol t q (sentinelCol t)) p = colLookup t p := by
            rw [colLookup_addCol]
            have hqf : (q == p) = false := by
              simpa using fun he => hpq he.symm
            rw [hqf]
            simp
          rw [hst]

theorem colLookup_backfillTier2_of_some (t : SoilTable) (name : String)
    (v : List SoilCell) (h : colLookup t name = some v) :
    colLookup (backfillTier2 t) name = some v := by
  rw [backfillTier2]
  split
  · exact colLookup_backfill_of_some _ t name v h
  · exact h

theorem colLookup_backfillTier3_of_some (t : SoilTable) (name : String)
    (v : List SoilCell) (h : colLookup t name = some v) :
    colLookup (backfillTier3 t) name = some v := by
  rw [backfillTier3]
  split
  · exact colLookup_backfill_of_some _ t name v h
  · exact h

theorem colLookup_backfillTier2_of_not_mem (t : SoilTable) (name : String)
    (h : name ∉ soil_layered_info_params_tier2) :
    colLookup (backfillTier2 t) name = colLookup t name := by
  rw [backfillTier2]
  split
  · exact colLookup_backfill_of_not_mem _ t name h
  · rfl

theorem hasCol_backfillTier2_of_not_mem (t : SoilTable) (name : String)
    (h : name ∉ soil_layered_info_params_tier2) :
    hasCol (backfillTier2 t) name = hasCol t name := by
  rw [hasCol, hasCol, colLookup_backfillTier2_of_not_mem t name h]

theorem sentinelCol_backfillTier2 (t : SoilTable) :
    sentinelCol (backfillTier2 t) = sentinelCol t := by
  rw [backfillTier2]
  split
  · exact sentinelCol_backfill _ t
  · rfl

/-- **C7.**  After `fix_missing_soil_param`: every general-info field and
every tier-1 layered field exists as a column; the tier-2 (resp. tier-3)
fields exist whenever the tier-2 table (`SLPX` column) (resp. tier-3
table, `ALFVG` column) is present on input; each such field carries its
original values when it was present on input and one `'-99'` sentinel per
row otherwise; and every column present on input keeps its original
values. -/
theorem fix_missing_soil_param_complete (info layered : SoilTable) :
    (∀ p ∈ soil_info_params,
        colLookup (fix_missing_soil_param info layered).1 p =
          some (origOrSentinel info p)) ∧
      (∀ (name : String) (v : List SoilCell), colLookup info name = some v →
        colLookup (fix_missing_soil_param info layered).1 name = some v) ∧
      (∀ p ∈ soil_layered_info_params_tier1,
        colLookup (fix_missing_soil_param info layered).2 p =
          some (origOrSentinel layered p)) ∧
      (hasCol layered "SLPX" = true →
        ∀ p ∈ soil_layered_info_params_tier2,
          colLookup (fix_missing_soil_param info layered).2 p =
            some (origOrSentinel layered p)) ∧
      (hasCol layered "ALFVG" = true →
        ∀ p ∈ soil_layered_info_params_tier3,
          colLookup (fix_missing_soil_param info layered).2 p =
            some (origOrSentinel layered p)) ∧
      (∀ (name : String) (v : List SoilCell), colLookup layered name = some v →
        colLookup (fix_missing_soil_param info layered).2 name = some v) := by
  simp only [fix_missing_soil_param]
  refine ⟨?_, ?_, ?_, ?_, ?_, ?_⟩
  · intro p hp
    rw [colLookup_backfill_mem _ info p hp]
    rfl
  · intro name v h
    exact colLookup_backfill_of_some _ info name v h
  · intro p hp
    exact colLookup_backfillTier3_of_some _ p _
      (colLookup_backfillTier2_of_some _ p _
        (colLookup_backfill_mem _ layered p hp))
  · intro hslpx p hp
    have hs1 : hasCol (backfill soil_layered_info_params_tier1 layered)
        "SLPX" = true := by
      rw [hasCol_backfill_of_not_mem _ layered _ (by decide)]
      exact hslpx
    have hT2 : backfillTier2 (backfill soil_layered_info_params_tier1 layered) =
        backfill soil_layered_info_params_tier2
          (backfill soil_layered_info_params_tier1 layered) := by
      rw [backfillTier2, if_pos hs1]
    by_cases hSLB : p = "SLB"
    · subst hSLB
      exact colLookup_backfillTier3_of_some _ _ _
        (colLookup_backfillTier2_of_some _ _ _
          (colLookup_backfill_mem _ layered _ (by decide)))
    · have hnt1 : p ∉ soil_layered_info_params_tier1 :=
        (by decide : ∀ x ∈ soil_layered_info_params_tier2, x ≠ "SLB" →
          x ∉ soil_layered_info_params_tier1) p hp hSLB
      have h2 : colLookup (backfillTier2
          (backfill soil_layered_info_params_tier1 layered)) p =
          some (origOrSentinel layered p) := by
        rw [hT2, colLookup_backfill_mem _ _ p hp,
          colLookup_backfill_of_not_mem _ layered p hnt1,
          sentinelCol_backfill]
        rfl
      exact colLookup_backfillTier3_of_some _ p _ h2
  · intro half p hp
    have hA2 : hasCol (backfillTier2
        (backfill soil_layered_info_params_tier1 layered)) "ALFVG" = true := by
      rw [hasCol_backfillTier2_of_not_mem _ _ (by decide),
        hasCol_backfill_of_not_mem _ layered _ (by decide)]
      exact half
    have hT3 : backfillTier3 (backfillTier2
        (backfill soil_layered_info_params_tier1 layered)) =
        backfill soil_layered_info_params_tier3 (backfillTier2
          (backfill soil_layered_info_params_tier1 layered)) := by
      rw [backfillTier3, if_pos hA2]
    by_cases hSLB : p = "SLB"
    · subst hSLB
      exact colLookup_backfillTier3_of_some _ _ _
        (colLookup_backfillTier2_of_some _ _ _
          (colLookup_backfill_mem _ layered _ (by decide)))
    · have hnt1 : p ∉ soil_layered_info_params_tier1 :=
        (by decide : ∀ x ∈ soil_layered_info_params_tier3, x ≠ "SLB" →
          x ∉ soil_layered_info_params_tier1) p hp hSLB
      have hnt2 : p ∉ soil_layered_info_params_tier2 :=
        (by decide : ∀ x ∈ soil_layered_info_params_tier3, x ≠ "SLB" →
          x ∉ soil_layered_info_params_tier2) p hp hSLB
      rw [hT3, colLookup_backfill_mem _ _ p hp,
        colLookup_backfillTier2_of_not_mem _ p hnt2,
        colLookup_backfill_of_not_mem _ layered p hnt1,
        sentinelCol_backfillTier2, sentinelCol_backfill]
      rfl
  · intro name v h
    exact colLookup_backfillTier3_of_some _ name _
      (colLookup_backfillTier2_of_some _ name _
        (colLookup_backfill_of_some _ layered name v h))

/-- A one-row general-info table carrying only `SALB`. -/
def infoEx : SoilTable :=
  ⟨1, [("SALB", [SoilCell.num (13 / 100)])]⟩

/-- A two-row layered table carrying `SLB` and `SLPX` (tier 2 present). -/
def layeredEx : SoilTable :=
  ⟨2, [("SLB", [SoilCell.num 5, SoilCell.num 15]),
       ("SLPX", [SoilCell.num 1, SoilCell.num 2])]⟩

theorem fix_missing_soil_param_complete_witness :
    colLookup (fix_missing_soil_param infoEx layeredEx).1 "SCOM" =
        some (origOrSentinel infoEx "SCOM") ∧
      colLookup (fix_missing_soil_param infoEx layeredEx).2 "SLAL" =
        some (origOrSentinel layeredEx "SLAL") ∧
      colLookup (fix_missing_soil_param infoEx layeredEx).2 "SLB" =
        some (origOrSentinel layeredEx "SLB") :=
  ⟨(fix_missing_soil_param_complete infoEx layeredEx).1 "SCOM" (by decide),
   (fix_missing_soil_param_complete infoEx layeredEx).2.2.2.1 (by decide)
     "SLAL" (by decide),
   (fix_missing_soil_param_complete infoEx layeredEx).2.2.1 "SLB" (by decide)⟩
